import Mathlib

/-!
# ttygif: replay of a ttyrec recording with one window capture per record

Shallow embedding of `src/ttygif.c`.

Conventions of the embedding

* `struct timeval` fields (`time_t`, `suseconds_t`) are 64-bit C `long`s.  The two
  subtractions and the decrement of `timeval_diff` are computed with two's-complement
  wrap-around into that range (`wrap64`).
* The floating-point expressions of the source (`+= 1e6`, `* 1e6`) are embedded as the
  exact integer operations.  On timestamps with a microsecond field in `0..999999`
  this is what the doubles compute whenever the result is in the `int` range (all
  intermediate values are integers of magnitude below 2^53, where IEEE double
  arithmetic is exact), and a result outside the `int` range stays outside it after
  rounding.  The place where the C types matter is the final conversion of the double
  to the `int` return value of `ttydelay`: it is defined only for values in the `int`
  range (`double_to_int`).
* `index` is a C `int` that grows by one per captured frame; it is a natural number
  here.
* Side effects are recorded as a list of `Event`s in program order.
* `while (1)` is a fuel-indexed loop: one unit of fuel per iteration.
-/

namespace Ttygif

/-! ## Timing -/

/-- C `struct timeval`. -/
structure timeval where
  tv_sec : Int
  tv_usec : Int
deriving DecidableEq, Repr

/-- Smallest value of a C `int` (32 bits). -/
def INT_MIN : Int := -2147483648

/-- Largest value of a C `int` (32 bits). -/
def INT_MAX : Int := 2147483647

/-- Smallest value of a 64-bit C `long`. -/
def LONG_MIN : Int := -9223372036854775808

/-- Largest value of a 64-bit C `long`. -/
def LONG_MAX : Int := 9223372036854775807

/-- The value a 64-bit `long` holds after an operation whose exact result is `x`:
`x` itself when it is in `LONG_MIN..LONG_MAX`, and `x` reduced modulo 2^64 into that
range when the operation overflows. -/
def wrap64 (x : Int) : Int :=
  (x + 9223372036854775808) % 18446744073709551616 - 9223372036854775808

/-- `timeval_diff (tv1, tv2)`, ttygif.c lines 49-63. -/
def timeval_diff (tv1 tv2 : timeval) : timeval :=
  let diff : timeval :=
    ⟨wrap64 (tv2.tv_sec - tv1.tv_sec), wrap64 (tv2.tv_usec - tv1.tv_usec)⟩
  if diff.tv_usec < 0 then
    ⟨wrap64 (diff.tv_sec - 1), diff.tv_usec + 1000000⟩
  else
    diff

/-- Conversion of a double holding the integer `v` to `int` (the implicit conversion of
the `return` expression of `ttydelay`).  The value is kept when it is representable;
otherwise C gives the conversion no defined result, which is `none` here. -/
def double_to_int (v : Int) : Option Int :=
  if INT_MIN ≤ v ∧ v ≤ INT_MAX then some v else none

/-- `ttydelay (prev, cur)`, ttygif.c lines 65-73. -/
def ttydelay (prev cur : timeval) : Option Int :=
  let diff := timeval_diff prev cur
  let diff : timeval := if diff.tv_sec < 0 then ⟨0, 0⟩ else diff
  double_to_int (diff.tv_sec * 1000000 + diff.tv_usec)

/-- A timestamp is valid when its microsecond field is in `0..999999`. -/
def timeval.valid (t : timeval) : Prop :=
  0 ≤ t.tv_usec ∧ t.tv_usec ≤ 999999

instance (t : timeval) : Decidable t.valid :=
  inferInstanceAs (Decidable (0 ≤ t.tv_usec ∧ t.tv_usec ≤ 999999))

/-- Chronological order of timestamps (the order of `timercmp`): `a` is strictly
earlier than `b`. -/
def timeval.before (a b : timeval) : Prop :=
  a.tv_sec < b.tv_sec ∨ (a.tv_sec = b.tv_sec ∧ a.tv_usec < b.tv_usec)

instance (a b : timeval) : Decidable (a.before b) :=
  inferInstanceAs (Decidable
    (a.tv_sec < b.tv_sec ∨ (a.tv_sec = b.tv_sec ∧ a.tv_usec < b.tv_usec)))

/-- The exact gap from `prev` to `cur` in microseconds. -/
def usec_gap (prev cur : timeval) : Int :=
  (cur.tv_sec - prev.tv_sec) * 1000000 + (cur.tv_usec - prev.tv_usec)

/-! ## Input stream and records -/

/-- A `FILE *` open for reading: the bytes that have not been consumed yet. -/
abbrev FILE := List Nat

/-- Modelled from the spec: the `Header` type of ttyrec.h, which is not part of the
sources at hand: the capture timestamp of a record and its payload byte length. -/
structure Header where
  tv : timeval
  len : Nat
deriving DecidableEq, Repr

/-- Modelled from the spec: the on-disk layout of a record header, which is decoded by
io.c (not part of the sources at hand): "a fixed-size header (capture timestamp as
seconds+microseconds, payload byte length, ...)".  The size in bytes and the decoding
of that many bytes are left open. -/
structure HeaderFormat where
  size : Nat
  size_pos : 0 < size
  decode : List Nat → Header

/-- Modelled from the spec: `read_header (fp, h)` of io.c, which is not part of the
sources at hand: "End-of-stream is signaled by failure to read a complete header".
`none` is the return value 0; otherwise the header is decoded and the stream advanced
past it. -/
def read_header (fmt : HeaderFormat) (fp : FILE) : Option (Header × FILE) :=
  if fp.length < fmt.size then none
  else some (fmt.decode (fp.take fmt.size), fp.drop fmt.size)

/-- `fread (buf, 1, n, fp)`: the bytes stored in `buf` (their number is the return
value, smaller than `n` when the stream ends early) and the advanced stream. -/
def fread (n : Nat) (fp : FILE) : List Nat × FILE :=
  (fp.take n, fp.drop n)

/-- What a `ReadFunc` leaves behind: its return value, the header stored in `*h`, the
bytes that were stored in the buffer `*buf` (the buffer itself has `h.len` bytes; those
beyond `buf.length` were never written), the advanced stream, and the messages passed
to `perror`.  When `ret = 0` the caller does not look at `h` and `buf`. -/
structure ReadOut where
  ret : Int
  h : Header
  buf : List Nat
  fp : FILE
  errs : List String

/-- `ttyread (fp, h, buf)`, ttygif.c lines 75-91.  `malloc` is taken to succeed (on
failure the source only calls `perror` and goes on). -/
def ttyread (fmt : HeaderFormat) (fp : FILE) : ReadOut :=
  match read_header fmt fp with
  | none => ⟨0, ⟨⟨0, 0⟩, 0⟩, [], fp, []⟩
  | some (h, fp1) =>
    let got := fread h.len fp1
    ⟨1, h, got.1, got.2, if got.1.length = 0 then ["fread"] else []⟩

/-! ## Events, sink and capture trigger -/

/-- C `struct termios`, reduced to the local-mode flag word that `main` changes. -/
structure termios where
  c_lflag : Nat
deriving DecidableEq, Repr

/-- What a `WriteFunc` does to the terminal's output stream. -/
inductive SinkEvent
  | fwrite (buf : List Nat) (len : Nat)
  | fflush
deriving DecidableEq, Repr

/-- Observable actions of the program, in program order. -/
inductive Event
  | usage
  | clear_screen
  | setbuf_stdout
  | setbuf_fp
  | getenv (name : String)
  | printf (text : String)
  | read (ret : Int) (h : Header) (buf : List Nat)
  | perror (msg : String)
  | sink (e : SinkEvent)
  | snapshot (index : Nat) (delay : Option Int) (wid : String) (ret : Int)
  | free
  | tcgetattr
  | tcsetattr (t : termios)
  | exit (status : Int)
deriving DecidableEq, Repr

abbrev ReadFunc := FILE → ReadOut

abbrev WriteFunc := List Nat → Nat → List SinkEvent

/-- `ttywrite (buf, len)`, ttygif.c lines 93-98. -/
def ttywrite (buf : List Nat) (len : Nat) : List SinkEvent :=
  [SinkEvent.fwrite buf len, SinkEvent.fflush]

/-- The answers of the environment inside `take_snapshot`: the return value of
`sprintf` and the status returned by `system (cmd)`, for the command built from the
window id, the frame index and the delay.  No two invocations of one run have the same
frame index, so this covers every behaviour of the capture command during a run. -/
structure SnapEnv where
  sprintf : String → Nat → Option Int → Int
  system : String → Nat → Option Int → Int

/-- `take_snapshot (index, delay, window_id)`, ttygif.c lines 105-121 (the settling
pause `usleep (50000)` has no effect on the values). -/
def take_snapshot (env : SnapEnv) (index : Nat) (delay : Option Int) (window_id : String) :
    Int :=
  if env.sprintf window_id index delay < 0 then -1
  else if env.system window_id index delay ≠ 0 then -1
  else 0

/-! ## Playback loop -/

/-- How a run of a function ended. -/
inductive Outcome
  | returned
  | exited (status : Int)
  | out_of_fuel
deriving DecidableEq, Repr

/-- The events of a run and how it ended. -/
structure Run where
  trace : List Event
  outcome : Outcome
deriving DecidableEq, Repr

def EXIT_FAILURE : Int := 1

/-- The `while (1)` loop of `ttyplay`, ttygif.c lines 142-165, started in the state
`(fp, index, delay, prev)`; one unit of fuel per iteration. -/
def ttyplay_loop (env : SnapEnv) (read_func : ReadFunc) (write_func : WriteFunc)
    (wid : String) : Nat → FILE → Nat → Option Int → timeval → Run
  | 0, _, _, _, _ => ⟨[], Outcome.out_of_fuel⟩
  | fuel + 1, fp, index, delay, prev =>
    let r := read_func fp
    let evRead := Event.read r.ret r.h r.buf :: r.errs.map Event.perror
    if r.ret = 0 then
      ⟨evRead, Outcome.returned⟩
    else
      let evWrite := (write_func r.buf r.h.len).map Event.sink
      let delay := if index ≠ 0 then ttydelay prev r.h.tv else delay
      let s := take_snapshot env index delay wid
      let evSnap := [Event.snapshot index delay wid s]
      if s ≠ 0 then
        ⟨evRead ++ evWrite ++ evSnap ++ [Event.perror "snapshot"], Outcome.returned⟩
      else
        let rest := ttyplay_loop env read_func write_func wid fuel r.fp (index + 1) delay r.h.tv
        ⟨evRead ++ evWrite ++ evSnap ++ [Event.free] ++ rest.trace, rest.outcome⟩

/-- `ttyplay (fp, read_func, write_func)`, ttygif.c lines 123-166.  `windowid` is the
value of `getenv ("WINDOWID")` (`none` for `NULL`).  `prev` is not initialised in the
source; it is not read before the first assignment. -/
def ttyplay (fuel : Nat) (env : SnapEnv) (windowid : Option String) (fp : FILE)
    (read_func : ReadFunc) (write_func : WriteFunc) : Run :=
  let evInit := [Event.clear_screen, Event.setbuf_stdout, Event.setbuf_fp,
    Event.getenv "WINDOWID"]
  let fatal : Run := ⟨evInit ++ [Event.printf "Error: WINDOWID environment variable was empty.",
    Event.exit EXIT_FAILURE], Outcome.exited EXIT_FAILURE⟩
  match windowid with
  | none => fatal
  | some wid =>
    if wid.length = 0 then fatal
    else
      let r := ttyplay_loop env read_func write_func wid fuel fp 0 (some 0) ⟨0, 0⟩
      ⟨evInit ++ r.trace, r.outcome⟩

/-- `ttyplayback (fp, read_func)`, ttygif.c lines 168-171: the argument `read_func` is
not used. -/
def ttyplayback (fmt : HeaderFormat) (fuel : Nat) (env : SnapEnv) (windowid : Option String)
    (fp : FILE) (_read_func : ReadFunc) : Run :=
  ttyplay fuel env windowid fp (ttyread fmt) ttywrite

/-! ## The program -/

def ICANON : Nat := 0x2

def ECHO : Nat := 0x8

def ECHONL : Nat := 0x40

/-- `new.c_lflag &= ~(ICANON | ECHO | ECHONL)` on the 32-bit flag word. -/
def clear_lflags (t : termios) : termios :=
  ⟨t.c_lflag &&& (0xFFFFFFFF ^^^ (ICANON ||| ECHO ||| ECHONL))⟩

/-- What the program is started with: the arguments, the content of the readable files
by name (`none` when a file cannot be opened), the environment variable `WINDOWID`, the
attributes of the terminal on descriptor 0 and the answers to the capture commands. -/
structure World where
  argv : List String
  fopen : String → Option FILE
  windowid : Option String
  term : termios
  snap : SnapEnv

/-- The end of the process: the events, the attributes the terminal is left with, and
how `main` ended (`returned` stands for `return 0`). -/
structure Final where
  trace : List Event
  term : termios
  outcome : Outcome
deriving DecidableEq, Repr

/-- Modelled from the spec: `efopen (name, "r")` of io.c, which is not part of the
sources at hand: an "unreadable input stream" is a fatal start-up error, "process exits
with failure status before any terminal-mode change is made".  `none` stands for that
exit. -/
def efopen (w : World) (name : String) : Option FILE :=
  w.fopen name

/-- `main (argc, argv)`, ttygif.c lines 180-206.  `usage ()` (lines 173-178) is the
event `usage` followed by the exit; `set_progname` only records the program name. -/
def main (fmt : HeaderFormat) (fuel : Nat) (w : World) : Final :=
  match w.argv with
  | [] => ⟨[Event.usage, Event.exit EXIT_FAILURE], w.term, Outcome.exited EXIT_FAILURE⟩
  | [_] => ⟨[Event.usage, Event.exit EXIT_FAILURE], w.term, Outcome.exited EXIT_FAILURE⟩
  | _ :: name :: _ =>
    match efopen w name with
    | none => ⟨[Event.perror name, Event.exit EXIT_FAILURE], w.term, Outcome.exited EXIT_FAILURE⟩
    | some input =>
      let old := w.term
      let new := clear_lflags old
      let evMode := [Event.tcgetattr, Event.tcsetattr new]
      let r := ttyplayback fmt fuel w.snap w.windowid input (ttyread fmt)
      match r.outcome with
      | Outcome.returned =>
        ⟨evMode ++ r.trace ++ [Event.tcsetattr old], old, Outcome.returned⟩
      | o => ⟨evMode ++ r.trace, new, o⟩

/-! ## Reading a trace -/

/-- One invocation of the capture trigger: the arguments and the return value. -/
structure Snap where
  index : Nat
  delay : Option Int
  wid : String
  ret : Int
deriving DecidableEq, Repr

def Event.to_snap : Event → Option Snap
  | Event.snapshot i d w r => some ⟨i, d, w, r⟩
  | _ => none

/-- The invocations of `take_snapshot` recorded in a trace, in order. -/
def snapshots (es : List Event) : List Snap :=
  es.filterMap Event.to_snap

def Event.to_record_time : Event → Option timeval
  | Event.read ret h _ => if ret = 0 then none else some h.tv
  | _ => none

/-- The timestamps of the records delivered by `read_func` in a trace, in order. -/
def record_times (es : List Event) : List timeval :=
  es.filterMap Event.to_record_time

/-- The delays belonging to a sequence of record timestamps: 0 for the first record,
and for every later one `ttydelay` of the timestamp before it and its own. -/
def expected_delays : List timeval → List (Option Int)
  | [] => []
  | t :: ts => some 0 :: List.zipWith ttydelay (t :: ts) ts

/-- An event of playback proper: a record read, a terminal write or a trigger
invocation. -/
def Event.is_playback : Event → Bool
  | Event.read _ _ _ => true
  | Event.sink _ => true
  | Event.snapshot _ _ _ _ => true
  | _ => false

/-- The stream holds exactly `n` records for `read_func`: `n` reads in a row deliver a
record and the next one reports the end of the stream. -/
def has_records (read_func : ReadFunc) : Nat → FILE → Bool
  | 0, fp => (read_func fp).ret == 0
  | n + 1, fp => (read_func fp).ret != 0 && has_records read_func n (read_func fp).fp

/-- An instance of the header layout: three 32-bit little-endian fields (seconds,
microseconds, payload length), twelve bytes. -/
def le32 (bs : List Nat) : Nat :=
  bs.foldr (fun b acc => b + 256 * acc) 0

def le32_format : HeaderFormat :=
  ⟨12, by decide, fun bs =>
    ⟨⟨le32 (bs.take 4), le32 ((bs.drop 4).take 4)⟩, le32 ((bs.drop 8).take 4)⟩⟩

/-- One record in the layout `le32_format`, for fields below 256. -/
def sample_record (sec usec : Nat) (payload : List Nat) : List Nat :=
  [sec, 0, 0, 0, usec, 0, 0, 0, payload.length, 0, 0, 0] ++ payload

/-- A recording of five records. -/
def five_records : FILE :=
  sample_record 10 90 [104] ++ sample_record 11 10 [105, 33] ++ sample_record 11 10 []
    ++ sample_record 9 0 [10] ++ sample_record 200 7 [62, 32]

/-- A capture environment in which every command succeeds. -/
def snap_ok : SnapEnv :=
  ⟨fun _ _ _ => 27, fun _ _ _ => 0⟩

/-- A capture environment in which the command for frame index `k` fails and all
others succeed. -/
def snap_fail_at (k : Nat) : SnapEnv :=
  ⟨fun _ _ _ => 27, fun _ i _ => if i = k then 256 else 0⟩

/-- A recording whose only header declares five payload bytes, followed by two. -/
def short_payload : FILE :=
  [10, 0, 0, 0, 90, 0, 0, 0, 5, 0, 0, 0, 104, 105]

/-- A start of the program with a readable recording and a terminal in canonical mode
with echo. -/
def sample_world (windowid : Option String) (snap : SnapEnv) : World :=
  ⟨["ttygif", "demo.tty"], fun _ => some five_records, windowid, ⟨0x8a3b⟩, snap⟩

/-! ## Theorems: timing -/

theorem wrap64_eq (x : Int) (h1 : LONG_MIN ≤ x) (h2 : x ≤ LONG_MAX) : wrap64 x = x := by
  unfold LONG_MIN at h1
  unfold LONG_MAX at h2
  unfold wrap64
  omega

theorem wrap64_range (x : Int) : LONG_MIN ≤ wrap64 x ∧ wrap64 x ≤ LONG_MAX := by
  unfold LONG_MIN LONG_MAX wrap64
  omega

theorem wrap64_usec (prev cur : timeval) (hp : prev.valid) (hc : cur.valid) :
    wrap64 (cur.tv_usec - prev.tv_usec) = cur.tv_usec - prev.tv_usec := by
  unfold timeval.valid at hp hc
  apply wrap64_eq
  · unfold LONG_MIN; omega
  · unfold LONG_MAX; omega

theorem timeval_diff_valid (prev cur : timeval) (hp : prev.valid) (hc : cur.valid) :
    (timeval_diff prev cur).valid := by
  have hu := wrap64_usec prev cur hp hc
  unfold timeval.valid at *
  unfold timeval_diff
  dsimp only
  rw [hu]
  split_ifs with h
  · dsimp only; omega
  · dsimp only; omega

/-- When the seconds of the two timestamps are less than 2^63 apart, `timeval_diff` is
the exact borrow subtraction. -/
theorem timeval_diff_exact (prev cur : timeval) (hp : prev.valid) (hc : cur.valid)
    (h1 : LONG_MIN < cur.tv_sec - prev.tv_sec) (h2 : cur.tv_sec - prev.tv_sec ≤ LONG_MAX) :
    timeval_diff prev cur
      = if cur.tv_usec < prev.tv_usec then
          ⟨cur.tv_sec - prev.tv_sec - 1, cur.tv_usec - prev.tv_usec + 1000000⟩
        else ⟨cur.tv_sec - prev.tv_sec, cur.tv_usec - prev.tv_usec⟩ := by
  have hu := wrap64_usec prev cur hp hc
  have hs : wrap64 (cur.tv_sec - prev.tv_sec) = cur.tv_sec - prev.tv_sec :=
    wrap64_eq _ (le_of_lt h1) h2
  have hs1 : wrap64 (cur.tv_sec - prev.tv_sec - 1) = cur.tv_sec - prev.tv_sec - 1 := by
    apply wrap64_eq
    · unfold LONG_MIN at *; omega
    · unfold LONG_MAX at *; omega
  unfold timeval_diff
  dsimp only
  rw [hu, hs, hs1]
  by_cases h : cur.tv_usec < prev.tv_usec
  · rw [if_pos (by omega), if_pos h]
  · rw [if_neg (by omega), if_neg h]

theorem timeval_diff_total (prev cur : timeval) (hp : prev.valid) (hc : cur.valid)
    (h1 : LONG_MIN < cur.tv_sec - prev.tv_sec) (h2 : cur.tv_sec - prev.tv_sec ≤ LONG_MAX) :
    (timeval_diff prev cur).tv_sec * 1000000 + (timeval_diff prev cur).tv_usec
      = usec_gap prev cur := by
  rw [timeval_diff_exact prev cur hp hc h1 h2]
  unfold usec_gap
  split_ifs with h
  · dsimp only; omega
  · dsimp only

/-- C1, as stated, fails: from (0 s, 0 us) to (2148 s, 0 us) the gap is 2148000000 us,
which is above the largest `int`; `ttydelay` does not return it. -/
theorem ttydelay_large_gap_not_exact :
    timeval.valid ⟨0, 0⟩ ∧ timeval.valid ⟨2148, 0⟩ ∧ timeval.before ⟨0, 0⟩ ⟨2148, 0⟩ ∧
      usec_gap ⟨0, 0⟩ ⟨2148, 0⟩ = 2148000000 ∧
      ttydelay ⟨0, 0⟩ ⟨2148, 0⟩ ≠ some (usec_gap ⟨0, 0⟩ ⟨2148, 0⟩) := by
  decide

/-- C1, amended: for valid timestamps with `cur` later than `prev` and a gap of at most
2147483647 us (`INT_MAX`), `ttydelay prev cur` is the exact microsecond gap
`(sec_cur - sec_prev) * 1000000 + (usec_cur - usec_prev)`; `timeval_diff` yields a
microsecond field in `0..999999` and borrows one second exactly when
`usec_cur < usec_prev`. -/
theorem ttydelay_exact_gap (prev cur : timeval) (hp : prev.valid) (hc : cur.valid)
    (hlt : prev.before cur) (hfit : usec_gap prev cur ≤ INT_MAX) :
    ttydelay prev cur = some (usec_gap prev cur) ∧
      (timeval_diff prev cur).valid ∧
      (cur.tv_usec < prev.tv_usec →
        timeval_diff prev cur
          = ⟨cur.tv_sec - prev.tv_sec - 1, cur.tv_usec - prev.tv_usec + 1000000⟩) ∧
      (¬ cur.tv_usec < prev.tv_usec →
        timeval_diff prev cur = ⟨cur.tv_sec - prev.tv_sec, cur.tv_usec - prev.tv_usec⟩) := by
  have hv := timeval_diff_valid prev cur hp hc
  have hrange : LONG_MIN < cur.tv_sec - prev.tv_sec ∧ cur.tv_sec - prev.tv_sec ≤ LONG_MAX := by
    unfold timeval.valid at hp hc
    unfold timeval.before at hlt
    unfold usec_gap INT_MAX at hfit
    unfold LONG_MIN LONG_MAX
    omega
  have hx := timeval_diff_exact prev cur hp hc hrange.1 hrange.2
  have ht := timeval_diff_total prev cur hp hc hrange.1 hrange.2
  refine ⟨?_, hv, ?_, ?_⟩
  · unfold timeval.valid at hp hc hv
    unfold timeval.before at hlt
    unfold usec_gap at ht hfit
    unfold INT_MAX at hfit
    have hsec : ¬ (timeval_diff prev cur).tv_sec < 0 := by omega
    unfold ttydelay double_to_int
    simp only [hsec, if_false]
    unfold usec_gap INT_MIN INT_MAX
    rw [ht, if_pos]
    omega
  · intro h
    rw [hx, if_pos h]
  · intro h
    rw [hx, if_neg h]

/-- The example of C1: from (10 s, 900000 us) to (11 s, 100000 us) the delay is
200000 us. -/
theorem ttydelay_exact_gap_witness :
    ttydelay ⟨10, 900000⟩ ⟨11, 100000⟩ = some 200000 ∧
      timeval_diff ⟨10, 900000⟩ ⟨11, 100000⟩ = ⟨0, 200000⟩ :=
  have h := ttydelay_exact_gap ⟨10, 900000⟩ ⟨11, 100000⟩ (by decide) (by decide)
    (by decide) (by decide)
  ⟨h.1, h.2.2.1 (by decide)⟩

/-- C2, as stated, fails at the end of the 64-bit range: for `prev` = (2^63 - 1 s, 0 us)
and `cur` = (-2 s, 0 us), both valid and `cur` earlier than `prev`, the subtraction of
the seconds overflows and wraps to 2^63 - 1; the difference is not negative, the clamp
is skipped, and `ttydelay` does not return 0. -/
theorem ttydelay_backward_overflow_not_zero :
    timeval.valid ⟨9223372036854775807, 0⟩ ∧ timeval.valid ⟨-2, 0⟩ ∧
      timeval.before ⟨-2, 0⟩ ⟨9223372036854775807, 0⟩ ∧
      timeval_diff ⟨9223372036854775807, 0⟩ ⟨-2, 0⟩ = ⟨9223372036854775807, 0⟩ ∧
      ttydelay ⟨9223372036854775807, 0⟩ ⟨-2, 0⟩ ≠ some 0 := by
  decide

/-- C2, amended: for valid timestamps with `cur` strictly earlier than `prev` and
seconds components less than 2^63 apart (`prev.tv_sec - cur.tv_sec ≤ LONG_MAX`, so that
the 64-bit subtraction does not overflow), `ttydelay prev cur` is exactly 0. -/
theorem ttydelay_backward_zero (prev cur : timeval) (hp : prev.valid) (hc : cur.valid)
    (hlt : cur.before prev) (hfit : prev.tv_sec - cur.tv_sec ≤ LONG_MAX) :
    ttydelay prev cur = some 0 := by
  have hrange : LONG_MIN < cur.tv_sec - prev.tv_sec ∧ cur.tv_sec - prev.tv_sec ≤ LONG_MAX := by
    unfold timeval.before at hlt
    unfold LONG_MAX at hfit
    unfold LONG_MIN LONG_MAX
    omega
  have ht := timeval_diff_total prev cur hp hc hrange.1 hrange.2
  have hv := timeval_diff_valid prev cur hp hc
  unfold timeval.valid at hp hc hv
  unfold timeval.before at hlt
  unfold usec_gap at ht
  have hsec : (timeval_diff prev cur).tv_sec < 0 := by omega
  unfold ttydelay
  simp only [hsec, if_true]
  decide

/-- An instance of C2, amended: the clock goes back by 200000 us. -/
theorem ttydelay_backward_zero_witness :
    ttydelay ⟨11, 100000⟩ ⟨10, 900000⟩ = some 0 :=
  ttydelay_backward_zero ⟨11, 100000⟩ ⟨10, 900000⟩ (by decide) (by decide) (by decide)
    (by decide)

/-- C10: for every valid timestamp `t`, `ttydelay t t` is 0. -/
theorem ttydelay_same_zero (t : timeval) (_ht : t.valid) : ttydelay t t = some 0 := by
  have hz : wrap64 0 = 0 := by decide
  unfold ttydelay timeval_diff
  simp only [sub_self, hz, lt_self_iff_false, if_false]
  decide

/-- For valid timestamps, in either order, a delay returned by `ttydelay` is not negative. -/
theorem ttydelay_nonneg (prev cur : timeval) (hp : prev.valid) (hc : cur.valid) (d : Int)
    (h : ttydelay prev cur = some d) : 0 ≤ d := by
  have hv := timeval_diff_valid prev cur hp hc
  unfold timeval.valid at hv
  unfold ttydelay double_to_int at h
  dsimp only at h
  split_ifs at h with h1 h2 h3
  · simp only [Option.some.injEq] at h
    omega
  · simp only [Option.some.injEq] at h
    omega

/-- An instance of C10. -/
theorem ttydelay_same_zero_witness : ttydelay ⟨1700000000, 999999⟩ ⟨1700000000, 999999⟩ = some 0 :=
  ttydelay_same_zero ⟨1700000000, 999999⟩ (by decide)

/-! ## Theorems: reading a trace -/

theorem snapshots_append (a b : List Event) :
    snapshots (a ++ b) = snapshots a ++ snapshots b := by
  unfold snapshots
  exact List.filterMap_append a b Event.to_snap

theorem snapshots_cons_read (ret : Int) (h : Header) (buf : List Nat) (es : List Event) :
    snapshots (Event.read ret h buf :: es) = snapshots es := rfl

theorem snapshots_perror (errs : List String) : snapshots (errs.map Event.perror) = [] := by
  induction errs with
  | nil => rfl
  | cons e es ih => exact ih

theorem snapshots_sink (out : List SinkEvent) : snapshots (out.map Event.sink) = [] := by
  induction out with
  | nil => rfl
  | cons e es ih => exact ih

theorem record_times_append (a b : List Event) :
    record_times (a ++ b) = record_times a ++ record_times b := by
  unfold record_times
  exact List.filterMap_append a b Event.to_record_time

theorem record_times_perror (errs : List String) :
    record_times (errs.map Event.perror) = [] := by
  induction errs with
  | nil => rfl
  | cons e es ih => exact ih

theorem record_times_sink (out : List SinkEvent) :
    record_times (out.map Event.sink) = [] := by
  induction out with
  | nil => rfl
  | cons e es ih => exact ih

/-- One iteration of the loop, unfolded. -/
theorem ttyplay_loop_succ (env : SnapEnv) (rf : ReadFunc) (wf : WriteFunc) (wid : String)
    (fuel : Nat) (fp : FILE) (index : Nat) (delay : Option Int) (prev : timeval) :
    ttyplay_loop env rf wf wid (fuel + 1) fp index delay prev =
      if (rf fp).ret = 0 then
        ⟨Event.read (rf fp).ret (rf fp).h (rf fp).buf :: (rf fp).errs.map Event.perror,
          Outcome.returned⟩
      else if take_snapshot env index
          (if index ≠ 0 then ttydelay prev (rf fp).h.tv else delay) wid ≠ 0 then
        ⟨(Event.read (rf fp).ret (rf fp).h (rf fp).buf :: (rf fp).errs.map Event.perror)
            ++ (wf (rf fp).buf (rf fp).h.len).map Event.sink
            ++ [Event.snapshot index (if index ≠ 0 then ttydelay prev (rf fp).h.tv else delay)
                wid (take_snapshot env index
                  (if index ≠ 0 then ttydelay prev (rf fp).h.tv else delay) wid)]
            ++ [Event.perror "snapshot"], Outcome.returned⟩
      else
        ⟨(Event.read (rf fp).ret (rf fp).h (rf fp).buf :: (rf fp).errs.map Event.perror)
            ++ (wf (rf fp).buf (rf fp).h.len).map Event.sink
            ++ [Event.snapshot index (if index ≠ 0 then ttydelay prev (rf fp).h.tv else delay)
                wid (take_snapshot env index
                  (if index ≠ 0 then ttydelay prev (rf fp).h.tv else delay) wid)]
            ++ [Event.free]
            ++ (ttyplay_loop env rf wf wid fuel (rf fp).fp (index + 1)
                (if index ≠ 0 then ttydelay prev (rf fp).h.tv else delay) (rf fp).h.tv).trace,
          (ttyplay_loop env rf wf wid fuel (rf fp).fp (index + 1)
                (if index ≠ 0 then ttydelay prev (rf fp).h.tv else delay)
                (rf fp).h.tv).outcome⟩ := by
  rfl

/-! ## Theorems: frame indices -/

/-- The frame indices handed to the trigger by the loop started at `index` are
`index, index + 1, ...`. -/
theorem ttyplay_loop_indices (env : SnapEnv) (rf : ReadFunc) (wf : WriteFunc) (wid : String)
    (fuel : Nat) : ∀ (fp : FILE) (index : Nat) (delay : Option Int) (prev : timeval),
    (snapshots (ttyplay_loop env rf wf wid fuel fp index delay prev).trace).map Snap.index
      = List.range' index
          (snapshots (ttyplay_loop env rf wf wid fuel fp index delay prev).trace).length := by
  induction fuel with
  | zero => intro fp index delay prev; rfl
  | succ fuel ih =>
    intro fp index delay prev
    rw [ttyplay_loop_succ]
    generalize (if index ≠ 0 then ttydelay prev (rf fp).h.tv else delay) = d
    by_cases h0 : (rf fp).ret = 0
    · rw [if_pos h0]
      simp [snapshots_cons_read, snapshots_perror]
    · rw [if_neg h0]
      by_cases hs : take_snapshot env index d wid ≠ 0
      · rw [if_pos hs]
        simp only [snapshots_append, List.cons_append, snapshots_cons_read, snapshots_perror,
          snapshots_sink, List.nil_append]
        simp [snapshots, Event.to_snap]
      · rw [if_neg hs]
        simp only [snapshots_append, List.cons_append, snapshots_cons_read, snapshots_perror,
          snapshots_sink, List.nil_append, List.map_append, List.length_append]
        rw [ih (rf fp).fp (index + 1) d (rf fp).h.tv]
        simp only [snapshots, Event.to_snap, List.filterMap_cons, List.filterMap_nil,
          List.map_cons, List.map_nil, List.length_cons, List.length_nil, List.nil_append,
          List.singleton_append, Nat.zero_add, Nat.add_zero]
        rw [Nat.add_comm 1, List.range'_succ]

/-- C3: in every run of `ttyplay` (any recording, any reader and writer, any behaviour
of the capture commands, any number of iterations), the frame indices passed to
`take_snapshot` are exactly `0, 1, ..., m - 1`, where `m` is the number of
invocations. -/
theorem ttyplay_frame_indices (fuel : Nat) (env : SnapEnv) (windowid : Option String)
    (fp : FILE) (rf : ReadFunc) (wf : WriteFunc) :
    (snapshots (ttyplay fuel env windowid fp rf wf).trace).map Snap.index
      = List.range (snapshots (ttyplay fuel env windowid fp rf wf).trace).length := by
  unfold ttyplay
  rcases windowid with _ | wid
  · simp [snapshots, Event.to_snap]
  · dsimp only
    split_ifs with hw
    · simp [snapshots, Event.to_snap]
    · have h := ttyplay_loop_indices env rf wf wid fuel fp 0 (some 0) ⟨0, 0⟩
      have e : ∀ t : List Event,
          snapshots ([Event.clear_screen, Event.setbuf_stdout, Event.setbuf_fp,
            Event.getenv "WINDOWID"] ++ t) = snapshots t := fun t => rfl
      rw [e, h, List.range_eq_range']

/-! ## Theorems: delays -/

theorem record_times_cons_read (ret : Int) (h : Header) (buf : List Nat) (es : List Event) :
    record_times (Event.read ret h buf :: es)
      = if ret = 0 then record_times es else h.tv :: record_times es := by
  unfold record_times
  by_cases h0 : ret = 0
  · simp [List.filterMap_cons, Event.to_record_time, h0]
  · simp [List.filterMap_cons, Event.to_record_time, h0]

/-- The delays handed to the trigger by the loop started in the state
`(index, delay, prev)`: the first one is `delay` itself when `index = 0` and
`ttydelay prev t` otherwise, every later one is `ttydelay` of two consecutive record
timestamps. -/
theorem ttyplay_loop_delays (env : SnapEnv) (rf : ReadFunc) (wf : WriteFunc) (wid : String)
    (fuel : Nat) : ∀ (fp : FILE) (index : Nat) (delay : Option Int) (prev : timeval),
    (snapshots (ttyplay_loop env rf wf wid fuel fp index delay prev).trace).map Snap.delay
      = match record_times (ttyplay_loop env rf wf wid fuel fp index delay prev).trace with
        | [] => []
        | t :: ts =>
          (if index ≠ 0 then ttydelay prev t else delay) :: List.zipWith ttydelay (t :: ts) ts := by
  induction fuel with
  | zero => intro fp index delay prev; rfl
  | succ fuel ih =>
    intro fp index delay prev
    rw [ttyplay_loop_succ]
    by_cases h0 : (rf fp).ret = 0
    · rw [if_pos h0]
      simp [snapshots_cons_read, snapshots_perror, record_times_cons_read, h0,
        record_times_perror]
    · rw [if_neg h0]
      by_cases hs : take_snapshot env index
          (if index ≠ 0 then ttydelay prev (rf fp).h.tv else delay) wid ≠ 0
      · rw [if_pos hs]
        simp only [snapshots_append, record_times_append, List.cons_append,
          snapshots_cons_read, record_times_cons_read, if_neg h0, snapshots_perror,
          record_times_perror, snapshots_sink, record_times_sink, List.nil_append]
        rfl
      · rw [if_neg hs]
        simp only [snapshots_append, record_times_append, List.cons_append,
          snapshots_cons_read, record_times_cons_read, if_neg h0, snapshots_perror,
          record_times_perror, snapshots_sink, record_times_sink, List.nil_append,
          List.map_append]
        rw [ih (rf fp).fp (index + 1)
          (if index ≠ 0 then ttydelay prev (rf fp).h.tv else delay) (rf fp).h.tv]
        have e1 : ∀ (i : Nat) (d : Option Int) (w : String) (r : Int),
            snapshots [Event.snapshot i d w r] = [⟨i, d, w, r⟩] := fun _ _ _ _ => rfl
        have e2 : snapshots [Event.free] = [] := rfl
        have e3 : ∀ (i : Nat) (d : Option Int) (w : String) (r : Int),
            record_times [Event.snapshot i d w r] = [] := fun _ _ _ _ => rfl
        have e4 : record_times [Event.free] = [] := rfl
        rw [e1, e2, e3, e4]
        simp only [List.map_cons, List.map_nil, List.nil_append, List.singleton_append,
          List.append_nil]
        cases record_times (ttyplay_loop env rf wf wid fuel (rf fp).fp (index + 1)
          (if index ≠ 0 then ttydelay prev (rf fp).h.tv else delay) (rf fp).h.tv).trace with
        | nil => rfl
        | cons t ts => simp

/-- C4: in every run of `ttyplay`, the delay passed to `take_snapshot` for the first
record is 0 and the delay passed for every later record is `ttydelay` of the previous
record's timestamp and its own: the list of delays passed is `expected_delays` of the
timestamps of the records read. -/
theorem ttyplay_delays (fuel : Nat) (env : SnapEnv) (windowid : Option String)
    (fp : FILE) (rf : ReadFunc) (wf : WriteFunc) :
    (snapshots (ttyplay fuel env windowid fp rf wf).trace).map Snap.delay
      = expected_delays (record_times (ttyplay fuel env windowid fp rf wf).trace) := by
  unfold ttyplay
  rcases windowid with _ | wid
  · rfl
  · dsimp only
    split_ifs with hw
    · rfl
    · have h := ttyplay_loop_delays env rf wf wid fuel fp 0 (some 0) ⟨0, 0⟩
      have e : ∀ t : List Event,
          snapshots ([Event.clear_screen, Event.setbuf_stdout, Event.setbuf_fp,
            Event.getenv "WINDOWID"] ++ t) = snapshots t := fun t => rfl
      have e2 : ∀ t : List Event,
          record_times ([Event.clear_screen, Event.setbuf_stdout, Event.setbuf_fp,
            Event.getenv "WINDOWID"] ++ t) = record_times t := fun t => rfl
      rw [e, e2, h]
      cases record_times (ttyplay_loop env rf wf wid fuel fp 0 (some 0) ⟨0, 0⟩).trace with
      | nil => rfl
      | cons t ts => rfl

/-! ## Theorems: abort on a failed capture -/

theorem no_snap_of_split (A pre post : List Event) (y : Event)
    (hA : ∀ e ∈ A, e.to_snap = none) (h : A = pre ++ y :: post) : y.to_snap = none := by
  apply hA
  rw [h]
  simp

theorem split_at_snapshot (tail post : List Event) (x y : Event) (hy : y.to_snap ≠ none) :
    ∀ (A pre : List Event), (∀ e ∈ A, e.to_snap = none) →
      A ++ x :: tail = pre ++ y :: post →
      (x = y ∧ post = tail) ∨ ∃ pre2, tail = pre2 ++ y :: post := by
  intro A
  induction A with
  | nil =>
    intro pre _ h
    cases pre with
    | nil =>
      simp only [List.nil_append, List.cons.injEq] at h
      exact Or.inl ⟨h.1, h.2.symm⟩
    | cons p pre2 =>
      simp only [List.nil_append, List.cons_append, List.cons.injEq] at h
      exact Or.inr ⟨pre2, h.2⟩
  | cons a A ih =>
    intro pre hA h
    cases pre with
    | nil =>
      simp only [List.nil_append, List.cons_append, List.cons.injEq] at h
      exact absurd (h.1 ▸ hA a (List.mem_cons_self a A)) hy
    | cons p pre2 =>
      simp only [List.cons_append, List.cons.injEq] at h
      exact ih pre2 (fun e he => hA e (List.mem_cons_of_mem a he)) h.2

theorem read_write_no_snap (r : ReadOut) (out : List SinkEvent) :
    ∀ e ∈ (Event.read r.ret r.h r.buf :: r.errs.map Event.perror) ++ out.map Event.sink,
      e.to_snap = none := by
  intro e he
  simp only [List.mem_append, List.mem_cons, List.mem_map] at he
  rcases he with (rfl | ⟨m, _, rfl⟩) | ⟨o, _, rfl⟩ <;> rfl

/-- In the loop, a failed trigger invocation is followed by the report `perror` and by
nothing else, and the loop has ended. -/
theorem ttyplay_loop_stops (env : SnapEnv) (rf : ReadFunc) (wf : WriteFunc) (wid : String)
    (fuel : Nat) : ∀ (fp : FILE) (index : Nat) (delay : Option Int) (prev : timeval)
      (pre post : List Event) (i : Nat) (d : Option Int) (w : String) (r : Int),
    (ttyplay_loop env rf wf wid fuel fp index delay prev).trace
        = pre ++ Event.snapshot i d w r :: post →
      r ≠ 0 →
      post = [Event.perror "snapshot"] ∧
        (ttyplay_loop env rf wf wid fuel fp index delay prev).outcome = Outcome.returned := by
  induction fuel with
  | zero =>
    intro fp index delay prev pre post i d w r h _
    have : ([] : List Event) = pre ++ Event.snapshot i d w r :: post := h
    simp at this
  | succ fuel ih =>
    intro fp index delay prev pre post i d w r h hr
    have hy : (Event.snapshot i d w r).to_snap ≠ none := by simp [Event.to_snap]
    rw [ttyplay_loop_succ] at h ⊢
    generalize (if index ≠ 0 then ttydelay prev (rf fp).h.tv else delay) = d0 at h ⊢
    by_cases h0 : (rf fp).ret = 0
    · rw [if_pos h0] at h
      have hn := no_snap_of_split _ pre post _
        (by
          have := read_write_no_snap (rf fp) []
          simpa using this) h
      exact absurd hn hy
    · rw [if_neg h0] at h ⊢
      by_cases hs : take_snapshot env index d0 wid ≠ 0
      · rw [if_pos hs] at h ⊢
        refine ⟨?_, rfl⟩
        have h2 : ((Event.read (rf fp).ret (rf fp).h (rf fp).buf
              :: (rf fp).errs.map Event.perror)
              ++ (wf (rf fp).buf (rf fp).h.len).map Event.sink)
            ++ Event.snapshot index d0 wid (take_snapshot env index d0 wid)
              :: [Event.perror "snapshot"]
            = pre ++ Event.snapshot i d w r :: post := by
          rw [← h]; simp
        rcases split_at_snapshot _ post _ _ hy _ pre (read_write_no_snap (rf fp) _) h2 with
          ⟨_, hp⟩ | ⟨pre2, hp⟩
        · exact hp
        · have hn := no_snap_of_split [Event.perror "snapshot"] pre2 post _
            (by intro e he; simp at he; subst he; rfl) hp
          exact absurd hn hy
      · rw [if_neg hs] at h ⊢
        have h2 : ((Event.read (rf fp).ret (rf fp).h (rf fp).buf
              :: (rf fp).errs.map Event.perror)
              ++ (wf (rf fp).buf (rf fp).h.len).map Event.sink)
            ++ Event.snapshot index d0 wid (take_snapshot env index d0 wid)
              :: (Event.free :: (ttyplay_loop env rf wf wid fuel (rf fp).fp (index + 1) d0
                  (rf fp).h.tv).trace)
            = pre ++ Event.snapshot i d w r :: post := by
          rw [← h]; simp
        rcases split_at_snapshot _ post _ _ hy _ pre (read_write_no_snap (rf fp) _) h2 with
          ⟨hx, _⟩ | ⟨pre2, hp⟩
        · simp only [Event.snapshot.injEq] at hx
          exact absurd (hx.2.2.2 ▸ not_not.mp hs) hr
        · cases pre2 with
          | nil =>
            simp only [List.nil_append, List.cons.injEq] at hp
            exact absurd hp.1 (by simp)
          | cons p pre3 =>
            simp only [List.cons_append, List.cons.injEq] at hp
            exact ih (rf fp).fp (index + 1) d0 (rf fp).h.tv pre3 post i d w r hp.2 hr

/-- C5: in every run of `ttyplay`, whatever follows a failed `take_snapshot` invocation
in the trace is the single report `perror ("snapshot")`: no further record read, no
further terminal write and no further trigger invocation take place, and `ttyplay`
returns. -/
theorem ttyplay_stops_at_failed_snapshot (fuel : Nat) (env : SnapEnv)
    (windowid : Option String) (fp : FILE) (rf : ReadFunc) (wf : WriteFunc)
    (pre post : List Event) (i : Nat) (d : Option Int) (w : String) (r : Int)
    (htrace : (ttyplay fuel env windowid fp rf wf).trace
      = pre ++ Event.snapshot i d w r :: post)
    (hfail : r ≠ 0) :
    post = [Event.perror "snapshot"] ∧ (∀ e ∈ post, e.is_playback = false) ∧
      (ttyplay fuel env windowid fp rf wf).outcome = Outcome.returned := by
  have hy : (Event.snapshot i d w r).to_snap ≠ none := by simp [Event.to_snap]
  have key : post = [Event.perror "snapshot"] ∧
      (ttyplay fuel env windowid fp rf wf).outcome = Outcome.returned := by
    unfold ttyplay at htrace ⊢
    rcases windowid with _ | wid
    · exact absurd (no_snap_of_split _ pre post _
        (by intro e he; simp at he; rcases he with rfl | rfl | rfl | rfl | rfl | rfl <;> rfl)
        htrace) hy
    · dsimp only at htrace ⊢
      split_ifs at htrace ⊢ with hw
      · exact absurd (no_snap_of_split _ pre post _
          (by intro e he; simp at he; rcases he with rfl | rfl | rfl | rfl | rfl | rfl <;> rfl)
          htrace) hy
      · dsimp only at htrace ⊢
        generalize hL : ttyplay_loop env rf wf wid fuel fp 0 (some 0) ⟨0, 0⟩ = L at htrace ⊢
        cases hLt : L.trace with
        | nil =>
          rw [hLt] at htrace
          exact absurd (no_snap_of_split _ pre post _
            (by intro e he; simp at he; rcases he with rfl | rfl | rfl | rfl <;> rfl)
            htrace) hy
        | cons x tail =>
          rw [hLt] at htrace
          rcases split_at_snapshot tail post x _ hy _ pre
            (by intro e he; simp at he; rcases he with rfl | rfl | rfl | rfl <;> rfl)
            htrace with ⟨hx, hp⟩ | ⟨pre2, hp⟩
          · have := ttyplay_loop_stops env rf wf wid fuel fp 0 (some 0) ⟨0, 0⟩ [] post i d w r
              (by rw [hL, hLt, hx, hp]; rfl) hfail
            rw [hL] at this
            exact this
          · have := ttyplay_loop_stops env rf wf wid fuel fp 0 (some 0) ⟨0, 0⟩ (x :: pre2)
              post i d w r (by rw [hL, hLt, hp]; rfl) hfail
            rw [hL] at this
            exact this
  refine ⟨key.1, ?_, key.2⟩
  rw [key.1]
  intro e he
  simp at he
  subst he
  rfl

/-- An instance of C5: the capture of the third of five records fails. -/
theorem ttyplay_stops_at_failed_snapshot_witness :
    (ttyplay 10 (snap_fail_at 2) (some "42") five_records (ttyread le32_format) ttywrite).trace
        = List.take 18 (ttyplay 10 (snap_fail_at 2) (some "42") five_records
            (ttyread le32_format) ttywrite).trace
          ++ Event.snapshot 2 (some 0) "42" (-1) :: [Event.perror "snapshot"] ∧
      (ttyplay 10 (snap_fail_at 2) (some "42") five_records (ttyread le32_format)
        ttywrite).outcome = Outcome.returned :=
  ⟨by decide,
    (ttyplay_stops_at_failed_snapshot 10 (snap_fail_at 2) (some "42") five_records
      (ttyread le32_format) ttywrite
      (List.take 18 (ttyplay 10 (snap_fail_at 2) (some "42") five_records
        (ttyread le32_format) ttywrite).trace)
      [Event.perror "snapshot"] 2 (some 0) "42" (-1) (by decide) (by decide)).2.2⟩

/-! ## Theorems: a capture failure on the k-th record -/

theorem take_snapshot_values (env : SnapEnv) (index : Nat) (delay : Option Int)
    (wid : String) :
    take_snapshot env index delay wid = 0 ∨ take_snapshot env index delay wid = -1 := by
  unfold take_snapshot
  split_ifs <;> simp

theorem snapshots_singleton (i : Nat) (d : Option Int) (w : String) (r : Int) :
    snapshots [Event.snapshot i d w r] = [⟨i, d, w, r⟩] := rfl

/-- The loop started at frame index `i0` on a stream of `n` records, when the
invocations for the next `j` records succeed and the one after them fails. -/
theorem ttyplay_loop_fail_at (env : SnapEnv) (rf : ReadFunc) (wf : WriteFunc) (wid : String)
    (j : Nat) : ∀ (fuel n : Nat) (fp : FILE) (i0 : Nat) (delay : Option Int) (prev : timeval),
    j < fuel → j < n → has_records rf n fp = true →
    (∀ s ∈ snapshots (ttyplay_loop env rf wf wid fuel fp i0 delay prev).trace,
      s.index < i0 + j → s.ret = 0) →
    (∀ s ∈ snapshots (ttyplay_loop env rf wf wid fuel fp i0 delay prev).trace,
      s.index = i0 + j → s.ret ≠ 0) →
    (snapshots (ttyplay_loop env rf wf wid fuel fp i0 delay prev).trace).map
        (fun s => (s.index, s.ret))
      = (List.range' i0 j).map (fun i => (i, (0 : Int))) ++ [(i0 + j, (-1 : Int))] ∧
    (ttyplay_loop env rf wf wid fuel fp i0 delay prev).outcome = Outcome.returned := by
  induction j with
  | zero =>
    intro fuel n fp i0 delay prev hfuel hn hrec _ hfail
    obtain ⟨fuel, rfl⟩ : ∃ f, fuel = f + 1 := ⟨fuel - 1, by omega⟩
    obtain ⟨n, rfl⟩ : ∃ m, n = m + 1 := ⟨n - 1, by omega⟩
    simp only [has_records, Bool.and_eq_true, bne_iff_ne, ne_eq] at hrec
    rw [ttyplay_loop_succ] at hfail ⊢
    generalize (if i0 ≠ 0 then ttydelay prev (rf fp).h.tv else delay) = d0 at hfail ⊢
    rw [if_neg hrec.1] at hfail ⊢
    by_cases hs : take_snapshot env i0 d0 wid ≠ 0
    · rw [if_pos hs]
      refine ⟨?_, rfl⟩
      simp only [snapshots_append, List.cons_append, snapshots_cons_read, snapshots_perror,
        snapshots_sink, List.nil_append, snapshots_singleton]
      rcases take_snapshot_values env i0 d0 wid with h | h
      · exact absurd h hs
      · rw [h]; rfl
    · rw [if_neg hs] at hfail
      simp only [snapshots_append, List.cons_append, snapshots_cons_read, snapshots_perror,
        snapshots_sink, List.nil_append, snapshots_singleton] at hfail
      exact absurd (hfail ⟨i0, d0, wid, take_snapshot env i0 d0 wid⟩
        (List.mem_cons_self _ _) rfl) hs
  | succ j ih =>
    intro fuel n fp i0 delay prev hfuel hn hrec hok hfail
    obtain ⟨fuel, rfl⟩ : ∃ f, fuel = f + 1 := ⟨fuel - 1, by omega⟩
    obtain ⟨n, rfl⟩ : ∃ m, n = m + 1 := ⟨n - 1, by omega⟩
    simp only [has_records, Bool.and_eq_true, bne_iff_ne, ne_eq] at hrec
    rw [ttyplay_loop_succ] at hok hfail ⊢
    generalize (if i0 ≠ 0 then ttydelay prev (rf fp).h.tv else delay) = d0 at hok hfail ⊢
    rw [if_neg hrec.1] at hok hfail ⊢
    by_cases hs : take_snapshot env i0 d0 wid ≠ 0
    · rw [if_pos hs] at hok
      simp only [snapshots_append, List.cons_append, snapshots_cons_read, snapshots_perror,
        snapshots_sink, List.nil_append, snapshots_singleton] at hok
      exact absurd (hok ⟨i0, d0, wid, take_snapshot env i0 d0 wid⟩
        (List.mem_cons_self _ _) (by dsimp only; omega)) hs
    · rw [if_neg hs] at hok hfail ⊢
      have e2 : snapshots [Event.free] = [] := rfl
      simp only [snapshots_append, List.cons_append, snapshots_cons_read, snapshots_perror,
        snapshots_sink, List.nil_append, snapshots_singleton, e2] at hok hfail ⊢
      have hrest := ih fuel n (rf fp).fp (i0 + 1) d0 (rf fp).h.tv (by omega) (by omega) hrec.2
        (fun s hs1 hs2 => hok s (List.mem_cons_of_mem _ hs1) (by omega))
        (fun s hs1 hs2 => hfail s (List.mem_cons_of_mem _ hs1) (by omega))
      refine ⟨?_, hrest.2⟩
      rw [List.map_cons, hrest.1, not_not.mp hs, List.range'_succ,
        show i0 + (j + 1) = i0 + 1 + j by omega]
      rfl

/-- C6, as stated, fails: with a failure on the 3rd of 5 records there are three
trigger invocations, with frame indices 0, 1, 2, and only two of them, those with
indices 0 and 1, are successful. -/
theorem third_of_five_two_successful :
    has_records (ttyread le32_format) 5 five_records = true ∧
      (snapshots (ttyplay 10 (snap_fail_at 2) (some "42") five_records
        (ttyread le32_format) ttywrite).trace).map (fun s => (s.index, s.ret))
        = [(0, 0), (1, 0), (2, -1)] ∧
      ((snapshots (ttyplay 10 (snap_fail_at 2) (some "42") five_records
        (ttyread le32_format) ttywrite).trace).filter (fun s => decide (s.ret = 0))).map
          Snap.index = [0, 1] ∧
      ((snapshots (ttyplay 10 (snap_fail_at 2) (some "42") five_records
        (ttyread le32_format) ttywrite).trace).filter (fun s => decide (s.ret = 0))).length
          ≠ 3 := by
  decide

/-- C6, amended: for a recording of `N` records and `1 ≤ k ≤ N`, if the capture trigger
succeeds on the records before the `k`-th and fails on the `k`-th, playback makes
exactly `k` trigger invocations, with frame indices `0, 1, ..., k - 1` in order; the
first `k - 1` of them succeed (return 0) and the `k`-th fails (returns -1), after which
`ttyplay` returns. -/
theorem ttyplay_failure_on_kth (fuel : Nat) (env : SnapEnv) (wid : String) (fp : FILE)
    (rf : ReadFunc) (wf : WriteFunc) (N k : Nat)
    (hwid : wid.length ≠ 0) (hrec : has_records rf N fp = true)
    (hk1 : 1 ≤ k) (hkN : k ≤ N) (hfuel : k ≤ fuel)
    (hok : ∀ s ∈ snapshots (ttyplay fuel env (some wid) fp rf wf).trace,
      s.index < k - 1 → s.ret = 0)
    (hfail : ∀ s ∈ snapshots (ttyplay fuel env (some wid) fp rf wf).trace,
      s.index = k - 1 → s.ret ≠ 0) :
    (snapshots (ttyplay fuel env (some wid) fp rf wf).trace).map (fun s => (s.index, s.ret))
      = (List.range (k - 1)).map (fun i => (i, (0 : Int))) ++ [(k - 1, (-1 : Int))] ∧
    (snapshots (ttyplay fuel env (some wid) fp rf wf).trace).length = k ∧
    (ttyplay fuel env (some wid) fp rf wf).outcome = Outcome.returned := by
  have e : ∀ t : List Event,
      snapshots ([Event.clear_screen, Event.setbuf_stdout, Event.setbuf_fp,
        Event.getenv "WINDOWID"] ++ t) = snapshots t := fun t => rfl
  have hrun : ttyplay fuel env (some wid) fp rf wf
      = ⟨[Event.clear_screen, Event.setbuf_stdout, Event.setbuf_fp, Event.getenv "WINDOWID"]
          ++ (ttyplay_loop env rf wf wid fuel fp 0 (some 0) ⟨0, 0⟩).trace,
        (ttyplay_loop env rf wf wid fuel fp 0 (some 0) ⟨0, 0⟩).outcome⟩ := by
    unfold ttyplay
    dsimp only
    rw [if_neg hwid]
  rw [hrun] at hok hfail ⊢
  dsimp only at hok hfail ⊢
  rw [e] at hok hfail ⊢
  have h := ttyplay_loop_fail_at env rf wf wid (k - 1) fuel N fp 0 (some 0) ⟨0, 0⟩
    (by omega) (by omega) hrec (fun s h1 h2 => hok s h1 (by omega))
    (fun s h1 h2 => hfail s h1 (by omega))
  have hpairs : (snapshots (ttyplay_loop env rf wf wid fuel fp 0 (some 0) ⟨0, 0⟩).trace).map
      (fun s => (s.index, s.ret))
      = (List.range (k - 1)).map (fun i => (i, (0 : Int))) ++ [(k - 1, (-1 : Int))] := by
    rw [h.1, List.range_eq_range', Nat.zero_add]
  refine ⟨hpairs, ?_, h.2⟩
  have hl := congrArg List.length hpairs
  simp only [List.length_map, List.length_append, List.length_range, List.length_cons,
    List.length_nil] at hl
  omega

/-- An instance of C6, amended: a failure on the 3rd of 5 records. -/
theorem ttyplay_failure_on_kth_witness :
    (snapshots (ttyplay 10 (snap_fail_at 2) (some "42") five_records (ttyread le32_format)
      ttywrite).trace).map (fun s => (s.index, s.ret))
        = (List.range (3 - 1)).map (fun i => (i, (0 : Int))) ++ [(3 - 1, (-1 : Int))] ∧
      (snapshots (ttyplay 10 (snap_fail_at 2) (some "42") five_records (ttyread le32_format)
        ttywrite).trace).length = 3 ∧
      (ttyplay 10 (snap_fail_at 2) (some "42") five_records (ttyread le32_format)
        ttywrite).outcome = Outcome.returned :=
  ttyplay_failure_on_kth 10 (snap_fail_at 2) "42" five_records (ttyread le32_format) ttywrite
    5 3 (by decide) (by decide) (by decide) (by decide) (by decide) (by decide) (by decide)

/-! ## Theorems: the reader -/

/-- A record delivered by `ttyread` never has more stored payload bytes than its header
declares. -/
theorem ttyread_buf_le (fmt : HeaderFormat) (fp : FILE) :
    (ttyread fmt fp).buf.length ≤ (ttyread fmt fp).h.len := by
  unfold ttyread
  cases read_header fmt fp with
  | none => simp
  | some p => simp [fread, List.length_take, Nat.min_le_left]

/-- A successful `ttyread` consumes at least the header. -/
theorem ttyread_consumes (fmt : HeaderFormat) (fp : FILE) (h : (ttyread fmt fp).ret ≠ 0) :
    (ttyread fmt fp).fp.length < fp.length := by
  unfold ttyread read_header at h ⊢
  have hpos := fmt.size_pos
  by_cases hlen : fp.length < fmt.size
  · simp [hlen] at h
  · simp only [hlen, if_false, fread, List.length_drop]
    omega

/-- The loop over `ttyread` ends by itself: with more fuel than the stream has bytes it
returns. -/
theorem ttyplay_loop_ttyread_returns (fmt : HeaderFormat) (env : SnapEnv) (wf : WriteFunc)
    (wid : String) (fuel : Nat) :
    ∀ (fp : FILE) (index : Nat) (delay : Option Int) (prev : timeval),
    fp.length < fuel →
    (ttyplay_loop env (ttyread fmt) wf wid fuel fp index delay prev).outcome
      = Outcome.returned := by
  induction fuel with
  | zero => intro fp index delay prev h; omega
  | succ fuel ih =>
    intro fp index delay prev h
    rw [ttyplay_loop_succ]
    generalize (if index ≠ 0 then ttydelay prev (ttyread fmt fp).h.tv else delay) = d0
    by_cases h0 : (ttyread fmt fp).ret = 0
    · rw [if_pos h0]
    · rw [if_neg h0]
      by_cases hs : take_snapshot env index d0 wid ≠ 0
      · rw [if_pos hs]
      · rw [if_neg hs]
        have := ttyread_consumes fmt fp h0
        exact ih (ttyread fmt fp).fp (index + 1) d0 (ttyread fmt fp).h.tv (by omega)

/-- The return value of `ttyread` depends on the header alone: it is 1 exactly when a
complete header could be read, whatever becomes of the payload. -/
theorem ttyread_ret_one_iff (fmt : HeaderFormat) (fp : FILE) :
    (ttyread fmt fp).ret = 1 ↔ fmt.size ≤ fp.length := by
  unfold ttyread read_header
  by_cases hlen : fp.length < fmt.size
  · simp [hlen]
  · simp only [hlen, if_false, true_iff]
    omega

/-- C9 does not hold of `ttyread`: when the header declares five payload bytes and the
stream ends after two, `ttyread` returns 1 with `h.len = 5` and two bytes stored, without
any report, and `ttyplay` plays the record: it writes five bytes from that buffer and
captures frame 0. -/
theorem ttyread_short_payload_is_delivered :
    (ttyread le32_format short_payload).ret = 1 ∧
      (ttyread le32_format short_payload).h.len = 5 ∧
      (ttyread le32_format short_payload).buf = [104, 105] ∧
      (ttyread le32_format short_payload).errs = [] ∧
      ttyplay 10 snap_ok (some "42") short_payload (ttyread le32_format) ttywrite
        = ⟨[Event.clear_screen, Event.setbuf_stdout, Event.setbuf_fp, Event.getenv "WINDOWID",
            Event.read 1 ⟨⟨10, 90⟩, 5⟩ [104, 105],
            Event.sink (SinkEvent.fwrite [104, 105] 5), Event.sink SinkEvent.fflush,
            Event.snapshot 0 (some 0) "42" 0, Event.free,
            Event.read 0 ⟨⟨0, 0⟩, 0⟩ []], Outcome.returned⟩ := by
  decide

/-! ## Theorems: the terminal mode -/

/-- When `main` returns, the terminal has the attributes it was started with. -/
theorem main_restores_on_return (fmt : HeaderFormat) (fuel : Nat) (w : World)
    (h : (main fmt fuel w).outcome = Outcome.returned) : (main fmt fuel w).term = w.term := by
  unfold main at h ⊢
  split at h
  · exact absurd h (by simp)
  · exact absurd h (by simp)
  · split at h
    · exact absurd h (by simp)
    · dsimp only at h ⊢
      split at h
      · rfl
      · rename_i ho
        exact absurd h ho

/-- A start without a file argument ends before any change of the terminal mode. -/
theorem main_usage_no_mode_change (fmt : HeaderFormat) (fuel : Nat) (w : World)
    (h : w.argv.length < 2) :
    (main fmt fuel w).trace = [Event.usage, Event.exit EXIT_FAILURE] ∧
      (main fmt fuel w).term = w.term := by
  unfold main
  rcases hargv : w.argv with _ | ⟨a, _ | ⟨b, t⟩⟩
  · exact ⟨rfl, rfl⟩
  · exact ⟨rfl, rfl⟩
  · rw [hargv] at h
    simp only [List.length_cons] at h
    omega

/-- With a readable recording and `WINDOWID` absent or empty, `main` has switched the
terminal mode when `ttyplay` ends the process, and the terminal keeps the switched
attributes. -/
theorem main_windowid_missing (fmt : HeaderFormat) (fuel : Nat) (w : World)
    (prog name : String) (rest : List String) (input : FILE)
    (hargv : w.argv = prog :: name :: rest) (hopen : efopen w name = some input)
    (hwid : w.windowid = none ∨ w.windowid = some "") :
    (main fmt fuel w).trace
        = [Event.tcgetattr, Event.tcsetattr (clear_lflags w.term), Event.clear_screen,
            Event.setbuf_stdout, Event.setbuf_fp, Event.getenv "WINDOWID",
            Event.printf "Error: WINDOWID environment variable was empty.",
            Event.exit EXIT_FAILURE] ∧
      (main fmt fuel w).term = clear_lflags w.term ∧
      (main fmt fuel w).outcome = Outcome.exited EXIT_FAILURE := by
  unfold main
  rw [hargv]
  dsimp only
  rw [hopen]
  dsimp only
  rcases hwid with hw | hw <;> rw [hw] <;> exact ⟨rfl, rfl, rfl⟩

/-- C7 does not hold of `main`: started on a terminal in canonical mode with echo
(c_lflag 0x8a3b), with a readable recording and `WINDOWID` not set, the process ends
with failure status while the terminal is left with the switched flags (0x8a31); the
original attributes are never set again. -/
theorem main_windowid_absent_terminal_not_restored :
    (main le32_format 100 (sample_world none snap_ok)).outcome
        = Outcome.exited EXIT_FAILURE ∧
      (main le32_format 100 (sample_world none snap_ok)).term = ⟨0x8a31⟩ ∧
      (main le32_format 100 (sample_world none snap_ok)).term
        ≠ (sample_world none snap_ok).term ∧
      Event.tcsetattr (sample_world none snap_ok).term
        ∉ (main le32_format 100 (sample_world none snap_ok)).trace := by
  decide

/-- C8 does not hold of `main`: with `WINDOWID` set to the empty string, the
`tcsetattr` that switches the terminal from 0x8a3b to 0x8a31 comes before the fatal
exit. -/
theorem main_windowid_empty_mode_changed_first :
    (main le32_format 100 (sample_world (some "") snap_ok)).trace
        = [Event.tcgetattr, Event.tcsetattr ⟨0x8a31⟩, Event.clear_screen,
            Event.setbuf_stdout, Event.setbuf_fp, Event.getenv "WINDOWID",
            Event.printf "Error: WINDOWID environment variable was empty.",
            Event.exit 1] ∧
      (sample_world (some "") snap_ok).term = ⟨0x8a3b⟩ ∧
      (main le32_format 100 (sample_world (some "") snap_ok)).outcome
        = Outcome.exited EXIT_FAILURE := by
  decide

/-- With a readable recording, `main` does not depend on the fuel once there is more of
it than the recording has bytes: the run ends by an exit or a return. -/
theorem main_finishes (fmt : HeaderFormat) (fuel : Nat) (w : World)
    (prog name : String) (rest : List String) (input : FILE)
    (hargv : w.argv = prog :: name :: rest) (hopen : efopen w name = some input)
    (hfuel : input.length < fuel) :
    (main fmt fuel w).outcome ≠ Outcome.out_of_fuel := by
  have hloop : ∀ wid, (ttyplay_loop w.snap (ttyread fmt) ttywrite wid fuel input 0 (some 0)
      ⟨0, 0⟩).outcome = Outcome.returned :=
    fun wid => ttyplay_loop_ttyread_returns fmt w.snap ttywrite wid fuel input 0 (some 0)
      ⟨0, 0⟩ hfuel
  have hplay : (ttyplayback fmt fuel w.snap w.windowid input (ttyread fmt)).outcome
      ≠ Outcome.out_of_fuel := by
    unfold ttyplayback ttyplay
    rcases w.windowid with _ | wid
    · simp
    · dsimp only
      split_ifs
      · simp
      · dsimp only
        rw [hloop wid]
        simp
  unfold main
  rw [hargv]
  dsimp only
  rw [hopen]
  dsimp only
  split
  · simp
  · rename_i o ho
    dsimp only
    intro h
    exact hplay h

/-- A complete run for comparison: the five records are played, five frames are
captured, and the terminal is restored. -/
theorem main_sample_run :
    (snapshots (main le32_format 100 (sample_world (some "42") snap_ok)).trace).map
        (fun s => (s.index, s.delay))
        = [(0, some 0), (1, some 999920), (2, some 0), (3, some 0), (4, some 191000007)] ∧
      (main le32_format 100 (sample_world (some "42") snap_ok)).term = ⟨0x8a3b⟩ ∧
      (main le32_format 100 (sample_world (some "42") snap_ok)).outcome
        = Outcome.returned := by
  decide

end Ttygif
